import Mathlib

/-!
Verification of the Acorn DFS disc-image codec (`dfsdisc`).

The definitions below are a shallow embedding of the Rust sources:
`src/dfs/disc.rs` (decode `Disc::from_bytes` / `populate_files`, encode
`Disc::to_image`, mutation API), `src/dfs/file.rs` (the `File` entry model),
and `src/support.rs` (`BCD`, `u16_from_le`, `AsciiPrintingChar`).

Bytes are modelled as `Nat` (with explicit masks where the Rust code relies
on machine-integer width), byte buffers as `List Nat`, fallible code as
`Except`.  Rust panics (out-of-bounds slice indexing, `u16_from_le` on a
slice whose length is not 2, `ArrayVec` capacity overflow) are modelled as a
distinguished `Fault.panic` outcome so that totality is provable rather than
assumed.
-/

set_option maxRecDepth 100000

namespace DfsDisc

/-- Error taxonomy of the codec.  `InvalidValue`, `InputTooSmall`,
`InvalidDiscData` and `DuplicateFileName` appear in the `DFSError` enum of
the sources; `InputTooLarge` is used by `Disc::to_image`.  The
`DuplicateFileName` display string `"dir.name"` is modelled as its byte
sequence. -/
inductive DFSError
  | InvalidValue
  | InputTooSmall (min : Nat)
  | InputTooLarge (n : Nat)
  | InvalidDiscData (offset : Nat)
  | DuplicateFileName (display : List Nat)
deriving DecidableEq

/-- Outcome channel separating codec errors from Rust panics. -/
inductive Fault
  | dfs (e : DFSError)
  | panic
deriving DecidableEq

/-- Result monad of embedded fallible code. -/
abbrev Res (α : Type) : Type := Except Fault α

instance {ε α : Type} [DecidableEq ε] [DecidableEq α] : DecidableEq (Except ε α) :=
  fun x y =>
    match x, y with
    | Except.ok a, Except.ok b =>
        if h : a = b then isTrue (by rw [h]) else isFalse (by simp [h])
    | Except.error a, Except.error b =>
        if h : a = b then isTrue (by rw [h]) else isFalse (by simp [h])
    | Except.ok _, Except.error _ => isFalse (by simp)
    | Except.error _, Except.ok _ => isFalse (by simp)

/-- Returns a `DFSError` (the ordinary error path of the Rust code). -/
def fail {α : Type} (e : DFSError) : Res α := Except.error (Fault.dfs e)

/-- Indexing `src[i]` on a Rust slice: the byte, or a panic when out of
bounds. -/
def readAt (src : List Nat) (i : Nat) : Res Nat :=
  match src.get? i with
  | some b => Except.ok b
  | none => Except.error Fault.panic

/-- Slicing `src[a..b]` on a Rust slice: the sub-slice, or a panic when the
range is invalid. -/
def sliceOf (src : List Nat) (a b : Nat) : Res (List Nat) :=
  if a ≤ b ∧ b ≤ src.length then Except.ok ((src.drop a).take (b - a))
  else Except.error Fault.panic

/-- Embedding of `support::u16_from_le`: panics unless the slice has length
exactly 2, otherwise `(src[1] << 8) | src[0]`. -/
def u16_from_le (src : List Nat) : Res Nat :=
  if src.length = 2 then Except.ok (((src.getD 1 0) <<< 8) ||| src.getD 0 0)
  else Except.error Fault.panic

/-- Printable-ASCII test of `support::AsciiPrintingChar::from_u8`:
`0x20 ≤ b < 0x7f`. -/
def isPrintable (b : Nat) : Bool := decide (0x20 ≤ b) && decide (b < 0x7f)

/-! ## BCD (src/support.rs) -/

/-- Reasons why constructing a `BCD` may fail (`support::BCDError`). -/
inductive BCDError
  | IntValueTooLarge
  | InvalidHexValue
deriving DecidableEq

/-- Container for a binary-coded decimal byte (`support::BCD`). -/
structure BCD where
  value : Nat
deriving DecidableEq

/-- Embedding of `BCD::from_u8`: packs a decimal 0–99 into nibbles. -/
def BCD.from_u8 (src : Nat) : Except BCDError BCD :=
  if src ≤ 99 then Except.ok ⟨((src / 10) <<< 4) + (src % 10)⟩
  else Except.error BCDError.IntValueTooLarge

/-- Modelled from the spec: the newer support module's `BCD::try_new`
("converts decimal 0–99 into this packed form"), which is the rename of
`BCD::from_u8` in src/support.rs; `Disc::increment_cycle` calls it. -/
def BCD.try_new (src : Nat) : Except BCDError BCD := BCD.from_u8 src

/-- Embedding of `BCD::into_u8` exactly as written in src/support.rs:
`(self.value >> 4) + (self.value & 15)`. -/
def BCD.into_u8 (b : BCD) : Nat := (b.value >>> 4) + (b.value &&& 15)

/-- Embedding of `BCD::from_hex`: validates a raw byte as packed BCD. -/
def BCD.from_hex (src : Nat) : Except BCDError BCD :=
  if 0xa0 ≤ (src &&& 0xf0) ∨ 0x0a ≤ (src &&& 0x0f) then
    Except.error BCDError.InvalidHexValue
  else Except.ok ⟨src⟩

/-- Modelled from the spec: the newer support module's `BCD::C00` constant
(the all-zero write cycle), used by `Disc::new` and `Disc::increment_cycle`. -/
def BCD.C00 : BCD := ⟨0⟩

/-! ## Boot option (src/dfs/disc.rs) -/

/-- Embedding of `dfs::disc::BootOption`. -/
inductive BootOption
  | None
  | Load
  | Run
  | Exec
deriving DecidableEq

/-- The `u8` discriminant of a `BootOption` (`BootOption as u8`). -/
def BootOption.toNat : BootOption → Nat
  | BootOption.None => 0
  | BootOption.Load => 1
  | BootOption.Run => 2
  | BootOption.Exec => 3

/-- Embedding of `TryFrom<u8> for BootOption`. -/
def BootOption.tryFrom (src : Nat) : Except DFSError BootOption :=
  match src with
  | 0 => Except.ok BootOption.None
  | 1 => Except.ok BootOption.Load
  | 2 => Except.ok BootOption.Run
  | 3 => Except.ok BootOption.Exec
  | _ => Except.error DFSError.InvalidValue

/-! ## AsciiName (newer support module; only callers are in src/) -/

/-- Modelled from the spec: `AsciiName<N>` — a fixed-capacity printable-ASCII
name ("construction is the only validation point — once constructed, the
byte is guaranteed printable ASCII (0x20–0x7E). `AsciiName<N>` additionally
guarantees length ≤ N").  The newer support module defining it is not among
the sources; its byte content is modelled directly. -/
structure AsciiName (N : Nat) where
  bytes : List Nat
deriving DecidableEq

/-- Modelled from the spec: `AsciiName<N>::try_from(bytes)` "validates every
byte and reports the first-failing index" (printable ASCII 0x20–0x7E).
A length above N (unreachable from the decoder, which always passes at most
N bytes) reports position N. -/
def AsciiName.tryFrom (N : Nat) (src : List Nat) : Except Nat (AsciiName N) :=
  match src.findIdx? (fun b => !(isPrintable b)) with
  | some i => Except.error i
  | none => if src.length ≤ N then Except.ok ⟨src⟩ else Except.error N

/-- Modelled from the spec: the empty `AsciiName` (`DiscName::empty()`). -/
def AsciiName.empty (N : Nat) : AsciiName N := ⟨[]⟩

/-! ## File entries (src/dfs/file.rs) -/

/-- Embedding of `file::Key`: file name (≤ 7 printable chars) plus directory
character (stored as its byte). -/
structure Key where
  name : AsciiName 7
  dir : Nat
deriving DecidableEq

/-- Embedding of `file::File`.  Note that the Rust struct derives
`PartialEq`/`Eq`, so equality compares every field (name, addresses, lock
flag, content) — which the derived `DecidableEq` here mirrors — even though
its `Hash` impl and doc comment key identity by name+directory only. -/
structure File where
  key : Key
  load_addr : Nat
  exec_addr : Nat
  is_locked : Bool
  content : List Nat
deriving DecidableEq

/-- Lexicographic strict order on byte strings (Rust slice `Ord`). -/
def lexLt : List Nat → List Nat → Bool
  | _, [] => false
  | [], _ :: _ => true
  | a :: as_, b :: bs => decide (a < b) || (decide (a = b) && lexLt as_ bs)

/-- Embedding of `Ord for file::Key`: directory first, then name. -/
def Key.leb (a b : Key) : Bool :=
  decide (a.dir < b.dir) ||
    (decide (a.dir = b.dir) &&
      (lexLt a.name.bytes b.name.bytes || decide (a.name.bytes = b.name.bytes)))

/-! ## Disc (src/dfs/disc.rs) -/

/-- Embedding of `disc::Disc`.  The `HashSet<File>` is modelled as the list
of its members (in iteration order); `Disc::to_image` sorts it by key before
use, and decode inserts in catalog order. -/
structure Disc where
  name : AsciiName 12
  boot_option : BootOption
  cycle : BCD
  files : List File
deriving DecidableEq

/-- Embedding of `Disc::new`: empty name, boot option `None`, cycle 0, no
files. -/
def Disc.new : Disc :=
  { name := AsciiName.empty 12
    boot_option := BootOption.None
    cycle := BCD.C00
    files := [] }

/-- Embedding of `Disc::increment_cycle`: `into_u8`, `wrapping_add(1)`,
re-pack with `try_new`, falling back to `C00` when packing fails. -/
def Disc.increment_cycle (d : Disc) : Disc :=
  let next_cycle := (d.cycle.into_u8 + 1) % 256
  { d with cycle := match BCD.try_new next_cycle with
                    | Except.ok bcd => bcd
                    | Except.error _ => BCD.C00 }

/-- Embedding of `HashSet::replace` on the file set: if a member equal to
`f` (full structural equality, per the derived `PartialEq` of `File`) is
present it is replaced and returned, otherwise `f` is added. -/
def replaceFile (files : List File) (f : File) : Option File × List File :=
  match files.find? (fun g => decide (g = f)) with
  | some old => (some old, files.erase f ++ [f])
  | none => (none, files ++ [f])

/-- Embedding of `Disc::add_file`: rejects (returning the file) when the set
already holds 31 entries, otherwise inserts via `HashSet::replace`. -/
def Disc.add_file (d : Disc) (f : File) : Except File (Option File) × Disc :=
  if 31 ≤ d.files.length then (Except.error f, d)
  else
    let r := replaceFile d.files f
    (Except.ok r.1, { d with files := r.2 })

/-- Embedding of `Disc::find_file`: keyed lookup (via `Borrow<Key>`, which
compares keys only). -/
def Disc.find_file (d : Disc) (name : AsciiName 7) (dir : Nat) : Option File :=
  d.files.find? (fun f => decide (f.key = Key.mk name dir))

/-- Embedding of `Disc::remove_file` (`HashSet::take` by key): removes and
returns the member whose key matches. -/
def Disc.remove_file (d : Disc) (name : AsciiName 7) (dir : Nat) :
    Option File × Disc :=
  match d.files.find? (fun f => decide (f.key = Key.mk name dir)) with
  | some old =>
      (some old,
       { d with files := d.files.filter (fun f => !decide (f.key = Key.mk name dir)) })
  | none => (none, d)

/-! ## Decode (src/dfs/disc.rs: `Disc::from_bytes`, `populate_files`) -/

/-- One iteration of the `populate_files` entry loop (src/dfs/disc.rs lines
382–434): directory byte and lock flag, file name, busy-byte address
extension, data-extent validation, and construction of the `File`. -/
def parseEntry (src : List Nat) (i : Nat) : Res File := do
  let offset1 := i * 8 + 0x008
  let offset2 := i * 8 + 0x108
  -- dir, locked
  let raw ← readAt src (offset1 + 7)
  let dirb := raw &&& 0x7f
  if isPrintable dirb = false then fail (DFSError.InvalidDiscData (offset1 + 7)) else
  let locked := decide (0x7f < raw)
  -- name
  let name_buf ← sliceOf src offset1 (offset1 + 7)
  let name_len := (name_buf.takeWhile (fun b => decide (0x20 < b))).length
  let name ← match AsciiName.tryFrom 7 (name_buf.take name_len) with
    | Except.ok n => pure n
    | Except.error p => fail (DFSError.InvalidDiscData (offset1 + p))
  -- busy byte, load/exec, length, start sector
  let busy_byte ← readAt src (offset2 + 6)
  let loadLo ← u16_from_le (← sliceOf src offset2 (offset2 + 2))
  let execLo ← u16_from_le (← sliceOf src (offset2 + 2) (offset2 + 4))
  let lenLo ← u16_from_le (← sliceOf src (offset2 + 4) (offset2 + 6))
  let startLo ← readAt src (offset2 + 7)
  let load_addr := loadLo ||| ((busy_byte <<< 14) &&& 0x30000)
  let exec_addr := execLo ||| ((busy_byte <<< 10) &&& 0x30000)
  let file_len := lenLo ||| ((busy_byte <<< 12) &&& 0x30000)
  let start_sector := startLo ||| ((busy_byte <<< 8) &&& 0x300)
  -- validate data offsets
  let data_start := start_sector * 0x100
  let data_end := data_start + file_len
  if data_start < 0x200 then fail (DFSError.InvalidDiscData (offset2 + 7)) else
  if src.length < data_end then fail (DFSError.InvalidDiscData (offset2 + 6)) else
  let file_contents ← sliceOf src data_start data_end
  pure { key := { name := name, dir := dirb }
         load_addr := load_addr
         exec_addr := exec_addr
         is_locked := locked
         content := file_contents }

/-- The `"dir.name"` display string attached to `DuplicateFileName`
(`format!("{}.{}", dir, file.name())`), as bytes. -/
def dupDisplay (f : File) : List Nat := f.key.dir :: 0x2e :: f.key.name.bytes

/-- The `for i in 0..num_catalogue_entries` loop of `populate_files`:
`i` is the next entry index, the second argument the number of entries still
to decode.  The duplicate check is `HashSet::contains`, i.e. full structural
equality of `File`. -/
def populateAux (src : List Nat) : Nat → Nat → List File → Res (List File)
  | _, 0, files => Except.ok files
  | i, r + 1, files => do
      let f ← parseEntry src i
      if files.contains f then fail (DFSError.DuplicateFileName (dupDisplay f))
      else populateAux src (i + 1) r (files ++ [f])

/-- Embedding of `populate_files`: entry count from the top 5 bits of
`src[0x105]` (low 3 bits must be zero), then the entry loop. -/
def populate_files (src : List Nat) : Res (List File) := do
  let raw ← readAt src 0x105
  if (raw &&& 0x07) ≠ 0 then fail (DFSError.InvalidDiscData 0x105) else
  populateAux src 0 (raw >>> 3) []

/-- The 12-byte disc-name buffer: `header[0x000..0x008] ++ header[0x100..0x104]`. -/
def nameBuf (header : List Nat) : List Nat :=
  header.take 8 ++ (header.drop 0x100).take 4

/-- Embedding of `Disc::from_bytes`: size check (`as_min_slice` to the first
two sectors), disc name with offset translation, sector-count check, boot
option, cycle, then `populate_files`. -/
def Disc.from_bytes (src : List Nat) : Res Disc := do
  if src.length < 512 then fail (DFSError.InputTooSmall 512) else
  let header_sectors := src.take 512
  -- disc name
  let buf := nameBuf header_sectors
  let name_len := (buf.takeWhile (fun b => decide (32 < b))).length
  let disc_name ← match AsciiName.tryFrom 12 (buf.take name_len) with
    | Except.ok n => pure n
    | Except.error str_pos =>
        -- decode index position back to byte offset
        fail (DFSError.InvalidDiscData (if 8 ≤ str_pos then str_pos + 0xf8 else str_pos))
  -- disc sector count (checked, not kept)
  let b106 ← readAt header_sectors 0x106
  let b107 ← readAt header_sectors 0x107
  if (b107 ||| ((b106 &&& 3) <<< 8)) < 2 then fail (DFSError.InvalidDiscData 0x107) else
  -- boot option
  let bootRaw ← readAt header_sectors 0x106
  let boot_option ← BootOption.tryFrom ((bootRaw >>> 4) &&& 3) |>.mapError Fault.dfs
  -- cycle
  let b104 ← readAt header_sectors 0x104
  let disc_cycle ← match BCD.from_hex b104 with
    | Except.ok b => pure b
    | Except.error _ => fail (DFSError.InvalidDiscData 0x104)
  let files ← populate_files src
  Except.ok { name := disc_name
              boot_option := boot_option
              cycle := disc_cycle
              files := files }

/-! ## Encode (src/dfs/disc.rs: `Disc::to_image`) -/

/-- Embedding of the local `BuildData` of `Disc::to_image`: a file together
with its assigned start sector and sector span. -/
structure BuildData where
  file : File
  start_sector : Nat
  sector_count : Nat
deriving DecidableEq

/-- Modelled from the spec: the newer support module's `.sectors()` on a
length — "sector_count = ceil(content.len() / 256)". -/
def sectorsOf (len : Nat) : Nat := (len + 255) / 256

/-- Insertion step of the key sort in `Disc::to_image`
(`sort_unstable_by_key(|b| b.file.key())`). -/
def insertBD (x : BuildData) : List BuildData → List BuildData
  | [] => [x]
  | y :: ys => if Key.leb x.file.key y.file.key then x :: y :: ys else y :: insertBD x ys

/-- The key sort of `Disc::to_image`: orders build data by file key
(directory, then name). -/
def sortByKey (l : List BuildData) : List BuildData := l.foldr insertBD []

/-- The start-sector assignment loop of `Disc::to_image`: sequential start
sectors beginning at the given running total (sector 2 at the top call),
with `u16` overflow of the running total (`checked_add` /
`NonZeroU16::new`) reported as `InputTooLarge(0x10000)`.  Returns the
assigned list and the final end sector. -/
def assignSectors : List BuildData → Nat → Res (List BuildData × Nat)
  | [], start => Except.ok ([], start)
  | d :: ds, start =>
      let next := start + d.sector_count
      if 0xffff < next ∨ next = 0 then fail (DFSError.InputTooLarge 0x10000)
      else do
        let rest ← assignSectors ds next
        Except.ok ({ d with start_sector := start } :: rest.1, rest.2)

/-- Modelled from the spec: `copy_space_padded` of the newer support module —
copies the source into an `n`-byte destination and fills the remainder with
spaces (0x20). -/
def spacePad (n : Nat) (src : List Nat) : List Nat :=
  src.take n ++ List.replicate (n - (src.take n).length) 0x20

/-- The 8-byte catalog name slot written by `Disc::to_image`: 7-byte
space-padded file name, then the raw directory byte (the source writes
`key().dir.as_byte()` without folding in the lock flag). -/
def nameBlock (f : File) : List Nat :=
  spacePad 7 f.key.name.bytes ++ [f.key.dir]

/-- Sector 0 as emitted by `Disc::to_image`: disc name bytes 0–7
space-padded, one 8-byte name slot per file starting at offset 8, zeros
elsewhere (the write buffer starts zeroed). -/
def sector0Bytes (d : Disc) (bd : List BuildData) : List Nat :=
  spacePad 8 d.name.bytes ++ (bd.map (fun b => nameBlock b.file)).flatten
    ++ List.replicate (256 - (8 + 8 * bd.length)) 0

/-- The 8-byte address slot written by `Disc::to_image` for one file:
low 16 bits of load/exec/length (LE), the packed busy byte, and the low
8 bits of the start sector. -/
def addrBlock (b : BuildData) : List Nat :=
  let load := b.file.load_addr
  let exec := b.file.exec_addr
  let len := b.file.content.length
  let start := b.start_sector
  [load &&& 0xff, (load >>> 8) &&& 0xff,
   exec &&& 0xff, (exec >>> 8) &&& 0xff,
   len &&& 0xff, (len >>> 8) &&& 0xff,
   (((exec >>> 16) &&& 3) <<< 6) ||| (((len >>> 16) &&& 3) <<< 4)
     ||| (((load >>> 16) &&& 3) <<< 2) ||| ((start >>> 8) &&& 3),
   start &&& 0xff]

/-- Sector 1 as emitted by `Disc::to_image`: disc name bytes 8–11
space-padded, cycle byte (`cycle().into_u8()`), `file_count * 8`, the
boot-option/high-sector-bits byte (built from the running written-sector
counter `sectors`), low 8 bits of the end sector, then one 8-byte address
slot per file from offset 8, zeros elsewhere. -/
def sector1Bytes (d : Disc) (bd : List BuildData) (sectors end_sector : Nat) :
    List Nat :=
  spacePad 4 ((d.name.bytes.drop 8).take 4) ++
  [d.cycle.into_u8,
   ((d.files.length % 256) * 8) % 256,
   (d.boot_option.toNat <<< 4) ||| ((sectors &&& 0x300) >>> 8),
   end_sector &&& 255] ++
  (bd.map addrBlock).flatten ++ List.replicate (256 - (8 + 8 * bd.length)) 0

/-- File contents as emitted by `Disc::to_image`: each file's bytes followed
by zero padding to the next 256-byte boundary. -/
def bodyBytes (bd : List BuildData) : List Nat :=
  (bd.map (fun b =>
    b.file.content ++
      (if b.file.content.length % 256 = 0 then []
       else List.replicate (256 - b.file.content.length % 256) 0))).flatten

/-- Embedding of `Disc::to_image`: per-file sector spans (content above
0x3ffff bytes is `InputTooLarge`; collecting more than `MAX_FILES = 31`
entries into the `ArrayVec` would panic, though no reachable `Disc` does),
key sort, start-sector assignment, the 800-sector cap, then the emitted
image (two header sectors and the padded contents).  Returns the end sector
and the bytes written. -/
def Disc.to_image (d : Disc) : Res (Nat × List Nat) := do
  if 31 < d.files.length then Except.error Fault.panic else
  let bd0 ← d.files.mapM (fun file =>
    if file.content.length ≤ 0x3ffff then
      Except.ok { file := file, start_sector := 2,
                  sector_count := sectorsOf file.content.length }
    else fail (DFSError.InputTooLarge file.content.length))
  let assigned ← assignSectors (sortByKey bd0) 2
  let file_indexes := assigned.1
  let end_sector := assigned.2
  if 800 < end_sector then fail (DFSError.InputTooLarge end_sector) else
  let sectors := 2
  let s0 := sector0Bytes d file_indexes
  -- write_buf: sector 0 flushed, counter advances
  let sectors := sectors + 1
  let s1 := sector1Bytes d file_indexes sectors end_sector
  Except.ok (end_sector, s0 ++ s1 ++ bodyBytes file_indexes)

/-! ## Concrete images used by the claim theorems -/

/-- Overwrites `bytes` into `img` at offset `off` (test-image construction
helper). -/
def patch (img : List Nat) (off : Nat) (bytes : List Nat) : List Nat :=
  img.take off ++ bytes ++ img.drop (off + bytes.length)

/-- An all-zero two-sector image with a declared sector count of 2. -/
def blankImg : List Nat := patch (List.replicate 512 0) 0x107 [2]

/-- Folds a list of (offset, bytes) patches over the blank image. -/
def buildImg (ps : List (Nat × List Nat)) : List Nat :=
  ps.foldl (fun img p => patch img p.1 p.2) blankImg

/-- Image with two catalog entries sharing the key `$.A` but with different
load addresses (entry 0 loads at 0x1234, entry 1 at 0). -/
def c2Img : List Nat :=
  buildImg
    [(0x008, [0x41] ++ List.replicate 6 0x20 ++ [0x24]),
     (0x010, [0x41] ++ List.replicate 6 0x20 ++ [0x24]),
     (0x105, [0x10]),
     (0x108, [0x34, 0x12, 0, 0, 0, 0, 0, 2]),
     (0x110, [0, 0, 0, 0, 0, 0, 0, 2])]

/-- The first `$.A` entry of `c2Img` as decoded. -/
def c2FileA : File :=
  { key := { name := ⟨[0x41]⟩, dir := 0x24 }
    load_addr := 0x1234, exec_addr := 0, is_locked := false, content := [] }

/-- The second `$.A` entry of `c2Img` as decoded. -/
def c2FileB : File :=
  { key := { name := ⟨[0x41]⟩, dir := 0x24 }
    load_addr := 0, exec_addr := 0, is_locked := false, content := [] }

/-- Image whose disc name has its first invalid byte (0xff) at logical
name-buffer position 10, stored at image offset 0x102. -/
def c4Img : List Nat :=
  buildImg
    [(0x000, [0x44, 0x69, 0x73, 0x63, 0x4e, 0x61, 0x6d, 0x65]),
     (0x100, [0x41, 0x42, 0xff, 0x44])]

/-- Image with one catalog entry whose name starts with the control byte
0x01 (below 0x20), directory `$`. -/
def c9Img : List Nat :=
  buildImg
    [(0x008, [0x01, 0x41, 0x20, 0x20, 0x20, 0x20, 0x20, 0x24]),
     (0x105, [0x08]),
     (0x108, [0, 0, 0, 0, 0, 0, 0, 2])]

/-! ## Helper lemmas -/

theorem res_bind_ok {α β : Type} (a : α) (f : α → Res β) :
    (Except.ok a >>= f : Res β) = f a := rfl

theorem res_bind_error {α β : Type} (e : Fault) (f : α → Res β) :
    (Except.error e >>= f : Res β) = Except.error e := rfl

theorem fail_bind {α β : Type} (e : DFSError) (f : α → Res β) :
    ((fail e : Res α) >>= f) = fail e := rfl

theorem readAt_eq_ok {src : List Nat} {i b : Nat} (h : src.get? i = some b) :
    readAt src i = Except.ok b := by
  unfold readAt; rw [h]

theorem readAt_of_lt {src : List Nat} {i : Nat} (h : i < src.length) :
    readAt src i = Except.ok (src.getD i 0) := by
  apply readAt_eq_ok
  rw [List.get?_eq_getElem?, List.getD_eq_getElem?_getD, List.getElem?_eq_getElem h]
  simp

theorem take_two_of_drop {src : List Nat} {o : Nat} (h : o + 2 ≤ src.length) :
    (src.drop o).take 2 = [src.getD o 0, src.getD (o + 1) 0] := by
  apply List.ext_getElem?
  intro i
  rw [List.getElem?_take]
  match i with
  | 0 =>
      rw [if_pos (by omega), List.getElem?_drop]
      rw [List.getD_eq_getElem src 0 (show o < src.length by omega)]
      rw [List.getElem?_eq_getElem (show o + 0 < src.length by omega)]
      simp
  | 1 =>
      rw [if_pos (by omega), List.getElem?_drop]
      rw [List.getD_eq_getElem src 0 (show o + 1 < src.length by omega)]
      rw [List.getElem?_eq_getElem (show o + 1 < src.length by omega)]
      simp
  | n + 2 =>
      rw [if_neg (by omega)]
      simp

theorem sliceOf_two {src : List Nat} {o : Nat} (h : o + 2 ≤ src.length) :
    sliceOf src o (o + 2) = Except.ok [src.getD o 0, src.getD (o + 1) 0] := by
  unfold sliceOf
  rw [if_pos ⟨by omega, h⟩]
  rw [show o + 2 - o = 2 by omega, take_two_of_drop h]

theorem u16_from_le_pair (a b : Nat) :
    u16_from_le [a, b] = Except.ok ((b <<< 8) ||| a) := rfl

theorem readAt_eq_panic {src : List Nat} {i : Nat} (h : src.get? i = none) :
    readAt src i = Except.error Fault.panic := by
  unfold readAt; rw [h]

theorem sliceOf_eq_ok {src : List Nat} {a b : Nat} (h1 : a ≤ b) (h2 : b ≤ src.length) :
    sliceOf src a b = Except.ok ((src.drop a).take (b - a)) := by
  unfold sliceOf; rw [if_pos ⟨h1, h2⟩]

theorem sliceOf_two' {src : List Nat} {a b : Nat} (hb : b = a + 2)
    (h : b ≤ src.length) :
    sliceOf src a b = Except.ok [src.getD a 0, src.getD (a + 1) 0] := by
  subst hb; exact sliceOf_two h

/-! ## Claim theorems -/

/-- Claim C1: round-tripping a Disc through encode then decode preserves
name, boot option, cycle and the file set.  The code violates this: for the
Disc with write cycle BCD 0x11 and no files, `to_image` writes
`cycle().into_u8()` (which sums the nibbles, yielding 2) at offset 0x104,
while decode reads that byte back as a raw BCD value, so the decoded cycle
is BCD 0x02, not BCD 0x11. -/
theorem c1_roundtrip_cycle_bug :
    (do
      let r ← Disc.to_image
        { name := ⟨[]⟩, boot_option := BootOption.None, cycle := ⟨0x11⟩, files := [] }
      Disc.from_bytes r.2) =
      Except.ok
        { name := ⟨[]⟩, boot_option := BootOption.None, cycle := ⟨0x02⟩, files := [] } ∧
    (⟨0x02⟩ : BCD) ≠ (⟨0x11⟩ : BCD) := by
  constructor
  · decide
  · decide

/-- Claim C2: two catalog entries with the same (directory, name) key but
different load addresses are claimed to make decode fail with
`DuplicateFileName`.  The code instead decodes `c2Img` successfully and
keeps both files (its duplicate check uses the derived full-field equality
of `File`, not key equality), so the claim fails on the code. -/
theorem c2_duplicate_key_not_detected :
    Disc.from_bytes c2Img =
      Except.ok
        { name := ⟨[]⟩, boot_option := BootOption.None, cycle := ⟨0⟩,
          files := [c2FileA, c2FileB] } ∧
    c2FileA.key = c2FileB.key ∧ c2FileA ≠ c2FileB := by
  refine ⟨by decide, by decide, by decide⟩

/-- Claim C3: no reachable Disc holds two files with the same (directory,
name) key.  The code violates this: `add_file` inserts via
`HashSet::replace`, which compares the derived full-field equality of
`File`, so adding two files with equal keys but different load addresses
leaves both in the set. -/
theorem c3_key_uniqueness_violated :
    ((Disc.new.add_file c2FileA).2.add_file c2FileB).2.files = [c2FileA, c2FileB] ∧
    (Disc.new.add_file c2FileA).1 = Except.ok none ∧
    ((Disc.new.add_file c2FileA).2.add_file c2FileB).1 = Except.ok none ∧
    c2FileA.key = c2FileB.key ∧ c2FileA ≠ c2FileB := by
  refine ⟨by decide, by decide, by decide, by decide, by decide⟩

/-- Claim C7: BCD conversions.  Construction from 99 succeeds and from 100
fails, and `from_hex` accepts 0x42 while rejecting 0x9A and 0xA0, as
claimed — but `into_u8` adds the two nibbles without weighting the tens
digit, so the result of packing 99 converts back to 18 (not 99) and BCD
0x42 converts to 6 (not 42).  The claim fails on the code, whose own doc
comment says `into_u8` "converts a BCD back into its decimal value". -/
theorem c7_bcd_into_u8_bug :
    BCD.from_u8 99 = Except.ok ⟨0x99⟩ ∧
    BCD.into_u8 ⟨0x99⟩ = 18 ∧ (18 : Nat) ≠ 99 ∧
    BCD.from_u8 100 = Except.error BCDError.IntValueTooLarge ∧
    BCD.from_hex 0x9a = Except.error BCDError.InvalidHexValue ∧
    BCD.from_hex 0xa0 = Except.error BCDError.InvalidHexValue ∧
    BCD.from_hex 0x42 = Except.ok ⟨0x42⟩ ∧
    BCD.into_u8 ⟨0x42⟩ = 6 ∧ (6 : Nat) ≠ 42 := by
  decide

/-- Claim C8: `increment_cycle` advances the cycle by one decimal unit and
wraps 99 to 0.  The code violates this: starting from BCD 0x99 (decimal 99)
the broken `into_u8` yields 18, so the next cycle stored is BCD 0x19
(decimal 19), not BCD 0x00. -/
theorem c8_increment_cycle_bug :
    (({ Disc.new with cycle := ⟨0x99⟩ } : Disc).increment_cycle).cycle = ⟨0x19⟩ ∧
    (⟨0x19⟩ : BCD) ≠ BCD.C00 := by
  decide

/-- Claim C4 (as stated): an invalid disc-name byte stored at image offset
0x100+k is claimed to be reported as `InvalidDiscData (8+k)`, the logical
name-buffer position.  Counterexample: in `c4Img` the first invalid byte is
at logical name-buffer position 10 (k = 2, image offset 0x102), and decode
reports `InvalidDiscData 0x102` — the translated absolute image offset —
not 8+2 = 10. -/
theorem c4_counterexample :
    Disc.from_bytes c4Img = Except.error (Fault.dfs (DFSError.InvalidDiscData 0x102)) ∧
    AsciiName.tryFrom 12
        ((nameBuf (c4Img.take 512)).take
          (((nameBuf (c4Img.take 512)).takeWhile (fun b => decide (32 < b))).length)) =
      Except.error 10 ∧
    (0x102 : Nat) ≠ 8 + 2 := by
  refine ⟨by decide, by decide, by decide⟩

/-- Claim C4 (amended): when validation of the 12-byte disc-name buffer
fails at logical position p, decode fails with `InvalidDiscData p` for
p < 8 (the byte at image offset p) and with `InvalidDiscData (p + 0xf8)`
— the translated absolute image offset `0x100 + (p - 8)` — for 8 ≤ p,
matching the source's own regression test. -/
theorem c4_amended_name_error_offset (src : List Nat) (p : Nat)
    (hlen : 512 ≤ src.length)
    (herr : AsciiName.tryFrom 12
        ((nameBuf (src.take 512)).take
          (((nameBuf (src.take 512)).takeWhile (fun b => decide (32 < b))).length)) =
        Except.error p) :
    Disc.from_bytes src =
      Except.error (Fault.dfs (DFSError.InvalidDiscData (if 8 ≤ p then p + 0xf8 else p))) := by
  unfold Disc.from_bytes
  rw [if_neg (by omega)]
  simp only [herr, res_bind_ok, res_bind_error, fail_bind]
  rfl

/-- Witness for the amended C4 theorem: the hypotheses hold at `c4Img` with
error position 10, so decode reports offset 0x102. -/
theorem c4_amended_witness :
    Disc.from_bytes c4Img =
      Except.error
        (Fault.dfs (DFSError.InvalidDiscData (if 8 ≤ 10 then 10 + 0xf8 else 10))) :=
  c4_amended_name_error_offset c4Img 10 (by decide) (by decide)

/-- Claim C9 (as stated): a file-name byte below 0x20 appearing before any
space is claimed to make decode fail with `InvalidDiscData` at that byte.
Counterexample: `c9Img` has the control byte 0x01 as the first name byte of
its only entry, yet decode succeeds (with an empty file name): bytes ≤ 0x20
terminate the name just like a space does. -/
theorem c9_counterexample :
    Disc.from_bytes c9Img =
      Except.ok
        { name := ⟨[]⟩, boot_option := BootOption.None, cycle := ⟨0⟩,
          files := [{ key := { name := ⟨[]⟩, dir := 0x24 },
                      load_addr := 0, exec_addr := 0, is_locked := false,
                      content := [] }] } ∧
    c9Img.getD 0x008 0 = 0x01 ∧ (0x01 : Nat) < 0x20 := by
  refine ⟨by decide, by decide, by decide⟩

/-- Claim C9 (amended): the name length is the count of leading bytes
strictly greater than 0x20 (space and control bytes alike terminate the
name and never cause an error); every byte within that length must be
printable (0x20–0x7E), and the first violator — necessarily a byte above
0x7E — yields `InvalidDiscData (name_offset + violator_index)`, provided
the entry's directory byte passed validation first. -/
theorem c9_amended_name_validation (src : List Nat) (i raw v : Nat) (nb : List Nat)
    (hdir : readAt src (i * 8 + 0x008 + 7) = Except.ok raw)
    (hprint : isPrintable (raw &&& 0x7f) = true)
    (hbuf : sliceOf src (i * 8 + 0x008) (i * 8 + 0x008 + 7) = Except.ok nb)
    (herr : AsciiName.tryFrom 7
        (nb.take ((nb.takeWhile (fun b => decide (0x20 < b))).length)) =
        Except.error v) :
    parseEntry src i =
      Except.error (Fault.dfs (DFSError.InvalidDiscData (i * 8 + 0x008 + v))) := by
  unfold parseEntry
  simp only [hdir, res_bind_ok, hprint, hbuf, herr, res_bind_error, fail_bind]
  rfl

/-- Image whose single entry's name is `A` followed by the non-printable
byte 0xff (then spaces): the violator index inside the trimmed name is 1. -/
def c9wImg : List Nat :=
  buildImg [(0x008, [0x41, 0xff, 0x20, 0x20, 0x20, 0x20, 0x20, 0x24])]

/-- Witness for the amended C9 theorem: on `c9wImg` the first violating
name byte has index 1, and entry 0 fails at offset 8 + 1. -/
theorem c9_amended_witness :
    parseEntry c9wImg 0 =
      Except.error (Fault.dfs (DFSError.InvalidDiscData (0 * 8 + 0x008 + 1))) :=
  c9_amended_name_validation c9wImg 0 0x24 1
    [0x41, 0xff, 0x20, 0x20, 0x20, 0x20, 0x20]
    (by decide) (by decide) (by decide) (by decide)

/-- Claim C5: for every successfully decoded catalog entry, the 18-bit load
address is its 16-bit little-endian base OR `(busy<<14)&0x30000`, the exec
address its base OR `(busy<<10)&0x30000`, the length (the decoded content's
length) its base OR `(busy<<12)&0x30000`, and the 10-bit start sector
(visible as the position of the decoded content within the image) its low
byte OR `(busy<<8)&0x300`, where `busy` is the byte at offset
`0x108 + 8*i + 6`. -/
theorem c5_busy_byte_extension (src : List Nat) (i : Nat) (f : File)
    (h : parseEntry src i = Except.ok f) :
    f.load_addr =
      ((src.getD (i * 8 + 0x108 + 1) 0 <<< 8) ||| src.getD (i * 8 + 0x108) 0) |||
        ((src.getD (i * 8 + 0x108 + 6) 0 <<< 14) &&& 0x30000) ∧
    f.exec_addr =
      ((src.getD (i * 8 + 0x108 + 3) 0 <<< 8) ||| src.getD (i * 8 + 0x108 + 2) 0) |||
        ((src.getD (i * 8 + 0x108 + 6) 0 <<< 10) &&& 0x30000) ∧
    f.content.length =
      ((src.getD (i * 8 + 0x108 + 5) 0 <<< 8) ||| src.getD (i * 8 + 0x108 + 4) 0) |||
        ((src.getD (i * 8 + 0x108 + 6) 0 <<< 12) &&& 0x30000) ∧
    f.content =
      (src.drop
        ((src.getD (i * 8 + 0x108 + 7) 0 |||
            ((src.getD (i * 8 + 0x108 + 6) 0 <<< 8) &&& 0x300)) * 0x100)).take
        (((src.getD (i * 8 + 0x108 + 5) 0 <<< 8) ||| src.getD (i * 8 + 0x108 + 4) 0) |||
          ((src.getD (i * 8 + 0x108 + 6) 0 <<< 12) &&& 0x30000)) := by
  unfold parseEntry at h
  -- directory byte read
  cases h77 : src.get? (i * 8 + 0x008 + 7) with
  | none =>
      simp only [readAt_eq_panic h77, res_bind_error] at h
      exact Except.noConfusion h
  | some raw =>
  simp only [readAt_eq_ok h77, res_bind_ok] at h
  by_cases hpr : isPrintable (raw &&& 0x7f) = false
  · simp only [if_pos hpr, fail_bind] at h
    exact Except.noConfusion h
  rw [if_neg hpr] at h
  -- name slice (in bounds because the directory byte read succeeded)
  have hb1 : i * 8 + 0x008 + 7 < src.length := (List.get?_eq_some.mp h77).1
  simp only [@sliceOf_eq_ok src (i * 8 + 0x008) (i * 8 + 0x008 + 7) (by omega) (by omega),
    res_bind_ok] at h
  -- name validation
  cases htf : AsciiName.tryFrom 7
      (((src.drop (i * 8 + 0x008)).take (i * 8 + 0x008 + 7 - (i * 8 + 0x008))).take
        ((((src.drop (i * 8 + 0x008)).take
          (i * 8 + 0x008 + 7 - (i * 8 + 0x008))).takeWhile
            (fun b => decide (0x20 < b))).length)) with
  | error p =>
      simp only [htf, fail_bind] at h
      exact Except.noConfusion h
  | ok nm =>
  simp only [htf, pure_bind] at h
  -- busy byte
  cases h6 : src.get? (i * 8 + 0x108 + 6) with
  | none =>
      simp only [readAt_eq_panic h6, res_bind_error] at h
      exact Except.noConfusion h
  | some busy =>
  have hb2 : i * 8 + 0x108 + 6 < src.length := (List.get?_eq_some.mp h6).1
  simp only [readAt_eq_ok h6, res_bind_ok] at h
  -- the three 16-bit little-endian reads
  simp only [@sliceOf_two' src (i * 8 + 0x108) (i * 8 + 0x108 + 2) rfl (by omega),
    res_bind_ok, u16_from_le_pair] at h
  simp only [@sliceOf_two' src (i * 8 + 0x108 + 2) (i * 8 + 0x108 + 4) (by omega) (by omega),
    res_bind_ok, u16_from_le_pair] at h
  simp only [@sliceOf_two' src (i * 8 + 0x108 + 4) (i * 8 + 0x108 + 6) (by omega) (by omega),
    res_bind_ok, u16_from_le_pair] at h
  -- start sector byte
  cases h7 : src.get? (i * 8 + 0x108 + 7) with
  | none =>
      simp only [readAt_eq_panic h7, res_bind_error] at h
      exact Except.noConfusion h
  | some startLo =>
  simp only [readAt_eq_ok h7, res_bind_ok] at h
  -- data extent checks
  by_cases hds : (startLo ||| ((busy <<< 8) &&& 0x300)) * 0x100 < 0x200
  · simp only [if_pos hds, fail_bind] at h
    exact Except.noConfusion h
  rw [if_neg hds] at h
  by_cases hde : src.length <
      (startLo ||| ((busy <<< 8) &&& 0x300)) * 0x100 +
        (((src.getD (i * 8 + 0x108 + 5) 0 <<< 8) ||| src.getD (i * 8 + 0x108 + 4) 0) |||
          ((busy <<< 12) &&& 0x30000))
  · simp only [if_pos hde, fail_bind] at h
    exact Except.noConfusion h
  rw [if_neg hde] at h
  simp only [@sliceOf_eq_ok src ((startLo ||| ((busy <<< 8) &&& 0x300)) * 0x100)
      ((startLo ||| ((busy <<< 8) &&& 0x300)) * 0x100 +
        (((src.getD (i * 8 + 0x108 + 5) 0 <<< 8) ||| src.getD (i * 8 + 0x108 + 4) 0) |||
          ((busy <<< 12) &&& 0x30000)))
      (by omega) (by omega), res_bind_ok] at h
  -- the final pure: extract the file
  injection h with hf
  subst hf
  have hbusy : src[i * 8 + 0x108 + 6]?.getD 0 = busy := by
    rw [← List.get?_eq_getElem?, h6]; rfl
  have hstart : src[i * 8 + 0x108 + 7]?.getD 0 = startLo := by
    rw [← List.get?_eq_getElem?, h7]; rfl
  have e3 : i * 8 + 0x108 + 2 + 1 = i * 8 + 0x108 + 3 := by omega
  have e5 : i * 8 + 0x108 + 4 + 1 = i * 8 + 0x108 + 5 := by omega
  simp only [List.getD_eq_getElem?_getD] at hde
  refine ⟨by simp [hbusy], by simp [hbusy, e3], ?_, ?_⟩
  · simp [hbusy, hstart, e5, List.length_take, List.length_drop]
    omega
  · simp [hbusy, hstart, e5]

/-- Image with one catalog entry (empty name, directory `$`) whose address
block is load 0x1234, exec 0x5678, length 0, busy byte 0xcc, start sector 2:
the busy byte extends load and exec by binary 11. -/
def c5Img : List Nat :=
  buildImg
    [(0x008, List.replicate 7 0 ++ [0x24]),
     (0x105, [0x08]),
     (0x108, [0x34, 0x12, 0x78, 0x56, 0, 0, 0xcc, 2])]

/-- The entry of `c5Img` as decoded: load 0x31234, exec 0x35678. -/
def c5File : File :=
  { key := { name := ⟨[]⟩, dir := 0x24 }
    load_addr := 0x31234, exec_addr := 0x35678, is_locked := false, content := [] }

/-- Witness for the C5 theorem at the concrete entry of `c5Img`. -/
theorem c5_witness :
    c5File.load_addr =
      ((c5Img.getD (0 * 8 + 0x108 + 1) 0 <<< 8) ||| c5Img.getD (0 * 8 + 0x108) 0) |||
        ((c5Img.getD (0 * 8 + 0x108 + 6) 0 <<< 14) &&& 0x30000) ∧
    c5File.exec_addr =
      ((c5Img.getD (0 * 8 + 0x108 + 3) 0 <<< 8) ||| c5Img.getD (0 * 8 + 0x108 + 2) 0) |||
        ((c5Img.getD (0 * 8 + 0x108 + 6) 0 <<< 10) &&& 0x30000) ∧
    c5File.content.length =
      ((c5Img.getD (0 * 8 + 0x108 + 5) 0 <<< 8) ||| c5Img.getD (0 * 8 + 0x108 + 4) 0) |||
        ((c5Img.getD (0 * 8 + 0x108 + 6) 0 <<< 12) &&& 0x30000) ∧
    c5File.content =
      (c5Img.drop
        ((c5Img.getD (0 * 8 + 0x108 + 7) 0 |||
            ((c5Img.getD (0 * 8 + 0x108 + 6) 0 <<< 8) &&& 0x300)) * 0x100)).take
        (((c5Img.getD (0 * 8 + 0x108 + 5) 0 <<< 8) ||| c5Img.getD (0 * 8 + 0x108 + 4) 0) |||
          ((c5Img.getD (0 * 8 + 0x108 + 6) 0 <<< 12) &&& 0x30000)) :=
  c5_busy_byte_extension c5Img 0 c5File (by decide)

theorem get?_eq_some_getD {src : List Nat} {i : Nat} (h : i < src.length) :
    src.get? i = some (src.getD i 0) := by
  rw [List.get?_eq_getElem?, List.getD_eq_getElem?_getD, List.getElem?_eq_getElem h]
  simp

theorem parseEntry_no_panic (src : List Nat) (i : Nat)
    (hlen : 512 ≤ src.length) (hi : i ≤ 30) :
    parseEntry src i ≠ Except.error Fault.panic := by
  intro h
  unfold parseEntry at h
  have hb : i * 8 + 0x008 + 7 < src.length := by omega
  simp only [readAt_of_lt hb, res_bind_ok] at h
  by_cases hpr : isPrintable (src.getD (i * 8 + 0x008 + 7) 0 &&& 0x7f) = false
  · simp only [if_pos hpr, fail] at h
    simp at h
  rw [if_neg hpr] at h
  simp only [@sliceOf_eq_ok src (i * 8 + 0x008) (i * 8 + 0x008 + 7) (by omega) (by omega),
    res_bind_ok] at h
  cases htf : AsciiName.tryFrom 7
      (((src.drop (i * 8 + 0x008)).take (i * 8 + 0x008 + 7 - (i * 8 + 0x008))).take
        ((((src.drop (i * 8 + 0x008)).take
          (i * 8 + 0x008 + 7 - (i * 8 + 0x008))).takeWhile
            (fun b => decide (0x20 < b))).length)) with
  | error p =>
      simp only [htf, fail, res_bind_error] at h
      simp at h
  | ok nm =>
  simp only [htf, pure_bind] at h
  have hb2 : i * 8 + 0x108 + 6 < src.length := by omega
  simp only [readAt_of_lt hb2, res_bind_ok] at h
  simp only [@sliceOf_two' src (i * 8 + 0x108) (i * 8 + 0x108 + 2) rfl (by omega),
    res_bind_ok, u16_from_le_pair] at h
  simp only [@sliceOf_two' src (i * 8 + 0x108 + 2) (i * 8 + 0x108 + 4) (by omega) (by omega),
    res_bind_ok, u16_from_le_pair] at h
  simp only [@sliceOf_two' src (i * 8 + 0x108 + 4) (i * 8 + 0x108 + 6) (by omega) (by omega),
    res_bind_ok, u16_from_le_pair] at h
  have hb3 : i * 8 + 0x108 + 7 < src.length := by omega
  simp only [readAt_of_lt hb3, res_bind_ok] at h
  by_cases hds : (src.getD (i * 8 + 0x108 + 7) 0 |||
      ((src.getD (i * 8 + 0x108 + 6) 0 <<< 8) &&& 0x300)) * 0x100 < 0x200
  · simp only [if_pos hds, fail_bind, fail] at h
    simp at h
  rw [if_neg hds] at h
  by_cases hde : src.length <
      (src.getD (i * 8 + 0x108 + 7) 0 |||
        ((src.getD (i * 8 + 0x108 + 6) 0 <<< 8) &&& 0x300)) * 0x100 +
        (((src.getD (i * 8 + 0x108 + 5) 0 <<< 8) ||| src.getD (i * 8 + 0x108 + 4) 0) |||
          ((src.getD (i * 8 + 0x108 + 6) 0 <<< 12) &&& 0x30000))
  · simp only [if_pos hde, fail_bind, fail] at h
    simp at h
  rw [if_neg hde] at h
  simp only [@sliceOf_eq_ok src
      ((src.getD (i * 8 + 0x108 + 7) 0 |||
          ((src.getD (i * 8 + 0x108 + 6) 0 <<< 8) &&& 0x300)) * 0x100)
      ((src.getD (i * 8 + 0x108 + 7) 0 |||
          ((src.getD (i * 8 + 0x108 + 6) 0 <<< 8) &&& 0x300)) * 0x100 +
        (((src.getD (i * 8 + 0x108 + 5) 0 <<< 8) ||| src.getD (i * 8 + 0x108 + 4) 0) |||
          ((src.getD (i * 8 + 0x108 + 6) 0 <<< 12) &&& 0x30000)))
      (by omega) (by omega), res_bind_ok] at h
  exact Except.noConfusion h

theorem populateAux_no_panic (src : List Nat) (hlen : 512 ≤ src.length) :
    ∀ r i files, i + r ≤ 31 →
      populateAux src i r files ≠ Except.error Fault.panic := by
  intro r
  induction r with
  | zero =>
      intro i files _ h
      simp only [populateAux] at h
      exact Except.noConfusion h
  | succ n ih =>
      intro i files hir h
      simp only [populateAux] at h
      cases hp : parseEntry src i with
      | error e =>
          cases e with
          | dfs e0 =>
              rw [hp, res_bind_error] at h
              simp at h
          | panic => exact parseEntry_no_panic src i hlen (by omega) hp
      | ok f =>
          rw [hp, res_bind_ok] at h
          by_cases hc : files.contains f = true
          · rw [if_pos hc, fail] at h
            simp at h
          · rw [if_neg hc] at h
            exact ih (i + 1) (files ++ [f]) (by omega) h

theorem populate_files_no_panic (src : List Nat) (hlen : 512 ≤ src.length)
    (hb : ∀ b ∈ src, b < 256) :
    populate_files src ≠ Except.error Fault.panic := by
  intro h
  unfold populate_files at h
  have h105 : 0x105 < src.length := by omega
  simp only [readAt_of_lt h105, res_bind_ok] at h
  by_cases hz : (src.getD 0x105 0 &&& 0x07) ≠ 0
  · rw [if_pos hz, fail] at h
    simp at h
  rw [if_neg hz] at h
  have hmem : src.getD 0x105 0 ∈ src := List.get?_mem (get?_eq_some_getD h105)
  have hlt : src.getD 0x105 0 < 256 := hb _ hmem
  have hr : src.getD 0x105 0 >>> 3 ≤ 31 := by
    rw [Nat.shiftRight_eq_div_pow]
    omega
  exact populateAux_no_panic src hlen (src.getD 0x105 0 >>> 3) 0 [] (by omega) h

/-- Claim C10: `Disc::from_bytes` is total over arbitrary byte input — it
returns `Ok` or a `DFSError` but never panics: input below 512 bytes is
rejected up front, the five-bit entry count (at most 31) keeps every
catalog access within the guaranteed 512-byte header, every `u16_from_le`
call receives a slice of length exactly 2, and each file's data extent is
checked against the input length before the content slice is taken. -/
theorem c10_from_bytes_total (src : List Nat) (hb : ∀ b ∈ src, b < 256) :
    Disc.from_bytes src ≠ Except.error Fault.panic := by
  intro h
  unfold Disc.from_bytes at h
  by_cases hlen : src.length < 512
  · rw [if_pos hlen, fail] at h
    simp at h
  rw [if_neg hlen] at h
  have hhl : (src.take 512).length = 512 := by
    rw [List.length_take]
    omega
  cases htf : AsciiName.tryFrom 12
      ((nameBuf (src.take 512)).take
        (((nameBuf (src.take 512)).takeWhile (fun b => decide (32 < b))).length)) with
  | error p =>
      simp only [htf, fail, res_bind_error] at h
      simp at h
  | ok nm =>
  simp only [htf, pure_bind] at h
  simp only [readAt_of_lt (show 0x106 < (src.take 512).length by omega),
    readAt_of_lt (show 0x107 < (src.take 512).length by omega),
    readAt_of_lt (show 0x104 < (src.take 512).length by omega), res_bind_ok] at h
  by_cases hsc : ((src.take 512).getD 0x107 0 |||
      (((src.take 512).getD 0x106 0 &&& 3) <<< 8)) < 2
  · rw [if_pos hsc, fail] at h
    simp at h
  rw [if_neg hsc] at h
  cases hbo : BootOption.tryFrom (((src.take 512).getD 0x106 0 >>> 4) &&& 3) with
  | error e =>
      simp only [hbo, Except.mapError, res_bind_error] at h
      simp at h
  | ok bo =>
  simp only [hbo, Except.mapError, res_bind_ok] at h
  cases hcy : BCD.from_hex ((src.take 512).getD 0x104 0) with
  | error e =>
      simp only [hcy, fail, res_bind_error] at h
      simp at h
  | ok cy =>
  simp only [hcy, pure_bind] at h
  cases hpf : populate_files src with
  | error e =>
      cases e with
      | dfs e0 =>
          rw [hpf, res_bind_error] at h
          simp at h
      | panic => exact populate_files_no_panic src (by omega) hb hpf
  | ok files =>
      rw [hpf, res_bind_ok] at h
      simp at h

/-- Witness for the C10 totality theorem at the empty input. -/
theorem c10_witness : Disc.from_bytes [] ≠ Except.error Fault.panic :=
  c10_from_bytes_total [] (by simp)

/-! ## Claim C6 -/

/-- Shape of `Disc::to_image` on a disc holding exactly one file whose
content fits the 18-bit length and the 800-sector extent: the end sector is
2 plus the file's sector span, and the image is the two header sectors
followed by the padded content. -/
theorem to_image_single (d : Disc) (f : File) (hf : d.files = [f])
    (hlen : f.content.length ≤ 0x3ffff)
    (hsec : sectorsOf f.content.length ≤ 798) :
    Disc.to_image d =
      Except.ok (2 + sectorsOf f.content.length,
        sector0Bytes d [⟨f, 2, sectorsOf f.content.length⟩] ++
          (sector1Bytes d [⟨f, 2, sectorsOf f.content.length⟩] 3
              (2 + sectorsOf f.content.length) ++
            bodyBytes [⟨f, 2, sectorsOf f.content.length⟩])) := by
  unfold Disc.to_image
  rw [hf]
  rw [if_neg (by simp)]
  simp only [List.mapM_cons, List.mapM_nil, if_pos hlen, res_bind_ok, pure_bind,
    sortByKey, List.foldr_cons, List.foldr_nil, insertBD, assignSectors]
  rw [if_neg (by omega)]
  simp only [res_bind_ok, pure_bind]
  rw [if_neg (by omega)]
  simp [List.append_assoc]

/-- Content of the C6 file: 65024 bytes, i.e. 254 sectors. -/
def c6Content : List Nat := List.replicate 65024 0

theorem c6Content_length : c6Content.length = 65024 := by
  rw [c6Content, List.length_replicate]

/-- A file of 65024 bytes (254 sectors), so that the encoded disc's end
sector is 256 and bits 8–9 of the end sector are nonzero. -/
def c6File : File :=
  { key := { name := ⟨[0x41]⟩, dir := 0x24 }
    load_addr := 0, exec_addr := 0, is_locked := false
    content := c6Content }

/-- Disc with boot option `Run` holding `c6File` only. -/
def c6Disc : Disc :=
  { name := ⟨[]⟩, boot_option := BootOption.Run, cycle := ⟨0⟩, files := [c6File] }

/-- The build data `to_image` computes for `c6File`. -/
def c6BD : BuildData := { file := c6File, start_sector := 2, sector_count := 254 }

theorem c6_sectors : sectorsOf c6File.content.length = 254 := by
  have : c6File.content.length = 65024 := c6Content_length
  rw [this]
  decide

theorem c6_to_image_eq :
    Disc.to_image c6Disc =
      Except.ok (256,
        sector0Bytes c6Disc [c6BD] ++
          (sector1Bytes c6Disc [c6BD] 3 256 ++ bodyBytes [c6BD])) := by
  have h := to_image_single c6Disc c6File rfl
    (by rw [show c6File.content = c6Content from rfl, c6Content_length]; omega)
    (by rw [c6_sectors]; omega)
  rw [c6_sectors] at h
  exact h

theorem c6_s0_length : (sector0Bytes c6Disc [c6BD]).length = 256 := by
  simp [sector0Bytes, spacePad, nameBlock, c6Disc, c6File, c6BD]

theorem c6_s1_byte6 : (sector1Bytes c6Disc [c6BD] 3 256).getD 6 0 = 0x20 := by
  simp only [sector1Bytes, spacePad, c6Disc]
  rw [List.getD_append _ _ _ _ (by simp [addrBlock])]
  rw [List.getD_append _ _ _ _ (by simp)]
  rw [List.getD_append_right _ _ _ _ (by simp)]
  simp [BootOption.toNat]
  decide

/-- Claim C6: the byte emitted at image offset 0x106 is claimed to carry
bits 8–9 of the returned end sector in its bits 0–1.  The code violates
this: for `c6Disc` the end sector is 256 (bits 8–9 equal 1), yet the
emitted byte is 0x20 — boot option `Run` in bits 4–5 and zero in bits 0–1,
because `to_image` masks the running written-header-sector counter (always
3 at that point) instead of the end sector. -/
theorem c6_end_sector_high_bits_bug :
    Except.map (fun r => (r.1, r.2.getD 0x106 0)) (Disc.to_image c6Disc) =
      Except.ok (256, 0x20) ∧
    ((0x20 : Nat) &&& 3) = 0 ∧
    (((256 : Nat) >>> 8) &&& 3) = 1 ∧
    (((0x20 : Nat) >>> 4) &&& 3) = BootOption.Run.toNat := by
  refine ⟨?_, by decide, by decide, by decide⟩
  rw [c6_to_image_eq]
  simp only [Except.map]
  rw [List.getD_append_right _ _ _ _ (by rw [c6_s0_length]; omega)]
  rw [c6_s0_length]
  rw [show (0x106 : Nat) - 256 = 6 by omega]
  rw [List.getD_append _ _ _ _ (by simp [sector1Bytes, spacePad, c6Disc, addrBlock])]
  rw [c6_s1_byte6]

end DfsDisc
